import Mathlib

/-!
Shallow embedding of the MCP orchestration hub core: the task routing
service, the task orchestrator, the connection registry heartbeat sweep,
and the resilience monitor (health checks, circuit breakers, recovery
actions).  Each definition mirrors one function of the TypeScript source;
timestamps are naturals (milliseconds), JS maps are association lists in
insertion order, and asynchronous effects (sending a task over a socket,
running a recovery action) are supplied as explicit result oracles.
-/

namespace MCP

/-! ### Association-list maps, mirroring JS Map semantics -/

/-- Lookup in an insertion-ordered map: first entry with the key. -/
def mapLookup : List (String × α) → String → Option α
  | [], _ => none
  | kv :: rest, k => if kv.1 = k then some kv.2 else mapLookup rest k

/-- JS Map.set: replace the value of the first (unique) entry with the key
in place when it exists, else append. -/
def mapSet : List (String × α) → String → α → List (String × α)
  | [], k, v => [(k, v)]
  | kv :: rest, k, v =>
    if kv.1 = k then (k, v) :: rest else kv :: mapSet rest k v

/-- JS Map.delete: remove every entry with the key. -/
def mapErase (m : List (String × α)) (k : String) : List (String × α) :=
  m.filter (fun kv => kv.1 ≠ k)

/-- Containment of string tag lists: every element of the first occurs in the
second (the superset check used for capability routing). -/
def listSubset (xs ys : List String) : Bool :=
  xs.all (fun x => ys.contains x)

/-! ### RoutingService data model (src/services/RoutingService.ts) -/

/-- Task lifecycle states of both the router and the orchestrator. -/
inductive TaskStatus where
  | pending
  | assigned
  | in_progress
  | completed
  | failed
deriving DecidableEq, Repr

/-- BotStatus entries of the router bot map.  The free-form metadata record
is omitted (never read by the routed operations). -/
structure BotStatus where
  id : String
  name : String
  capabilities : List String
  load : Int
  lastHeartbeat : Nat
  isAvailable : Bool
deriving DecidableEq, Repr

/-- Task records of the router queue.  The opaque payload is a string. -/
structure RTask where
  id : String
  type : String
  priority : Int
  requiredCapabilities : List String
  data : String
  createdAt : Nat
  status : TaskStatus
  assignedTo : Option String := none
  result : Option String := none
  error : Option String := none
deriving DecidableEq, Repr

/-- State owned by the RoutingService singleton: the bot map (insertion
order), the live task queue, the completed-task archive, and the pending
task timeouts armed by setTaskTimeout, as (fire time, task id) pairs. -/
structure RouterState where
  bots : List BotStatus
  taskQueue : List RTask
  completedTasks : List (String × RTask)
  timers : List (Nat × String)
deriving DecidableEq, Repr

/-- Default per-task timeout window: 5 * 60 * 1000 ms. -/
def taskTimeoutMs : Nat := 300000

/-- Ordering used by the processTasks sort comparator: higher priority
first, ties by creation time with older first. -/
def taskLE (a b : RTask) : Prop :=
  b.priority < a.priority ∨ (a.priority = b.priority ∧ a.createdAt ≤ b.createdAt)

instance : DecidableRel taskLE := fun a b => by
  unfold taskLE; exact inferInstance

instance : IsTotal RTask taskLE := ⟨by
  intro a b; unfold taskLE; omega⟩

instance : IsTrans RTask taskLE := ⟨by
  intro a b c; unfold taskLE; omega⟩

/-- Ordering used by the findSuitableBot sort comparator: lower load first. -/
def loadLE (a b : BotStatus) : Prop := a.load ≤ b.load

instance : DecidableRel loadLE := fun a b =>
  inferInstanceAs (Decidable (a.load ≤ b.load))

instance : IsTotal BotStatus loadLE := ⟨fun a b => le_total a.load b.load⟩

instance : IsTrans BotStatus loadLE := ⟨fun _ _ _ h h2 => le_trans h h2⟩

/-- The stable sort of the task queue snapshot performed by processTasks. -/
def sortTasks (q : List RTask) : List RTask :=
  List.insertionSort taskLE q

/-- Sort key of the processTasks comparator, used to state stability: two
tasks compare equal exactly when priority and creation time both agree. -/
def sameKey (p : Int) (c : Nat) (t : RTask) : Bool :=
  t.priority = p && t.createdAt = c

/-- Filter of findSuitableBot: available, load strictly below 100, and the
bot capability list contains every required capability. -/
def qualifies (t : RTask) (b : BotStatus) : Bool :=
  (b.isAvailable && b.load < 100) && listSubset t.requiredCapabilities b.capabilities

/-- findSuitableBot: tasks with an empty required-capability list are
rejected as unroutable; otherwise the qualifying bots are sorted by load
ascending (stable, so bot-map order breaks ties) and the first is chosen. -/
def findSuitableBot (s : RouterState) (t : RTask) : Option BotStatus :=
  if t.requiredCapabilities.isEmpty then none
  else (List.insertionSort loadLE (s.bots.filter (fun b => qualifies t b))).head?

/-- In-place update of the first task with the given id (JS mutates the
queue entry through the object reference found by Array.find). -/
def updateTask (q : List RTask) (tid : String) (f : RTask → RTask) : List RTask :=
  match q with
  | [] => []
  | t :: ts => if t.id = tid then f t :: ts else t :: updateTask ts tid f

/-- In-place update of the bot with the given id in the bot map. -/
def updateBot (bs : List BotStatus) (bid : String) (f : BotStatus → BotStatus) :
    List BotStatus :=
  bs.map (fun b => if b.id = bid then f b else b)

/-- Load increment applied at assignment: load += 10, availability derived. -/
def incLoad (b : BotStatus) : BotStatus :=
  let l := b.load + 10
  { b with load := l, isAvailable := l < 100 }

/-- Load release applied on terminal transitions: load = max(0, load - 10),
availability derived. -/
def decLoad (b : BotStatus) : BotStatus :=
  let l := max 0 (b.load - 10)
  { b with load := l, isAvailable := l < 100 }

/-- One iteration of the processTasks loop for the task with the given id.
The iteration reads the live queue entry, skips non-pending tasks, and on
a match marks the task assigned, increments the chosen bot load, attempts
the socket dispatch (the oracle gives the outcome of WebSocketService.send;
a throw is caught inside sendTaskToBot and marks the task failed), and arms
the completion timeout.  The outer try/catch of the source is unreachable
in this pure model because sendTaskToBot catches its own send errors. -/
def procStep (orc : String → Bool) (now : Nat) (s : RouterState) (tid : String) :
    RouterState :=
  match s.taskQueue.find? (fun t => t.id = tid) with
  | none => s
  | some t =>
    if t.status ≠ TaskStatus.pending then s
    else
      match findSuitableBot s t with
      | none => s
      | some b =>
        let q1 := updateTask s.taskQueue tid
          (fun u => { u with status := TaskStatus.assigned, assignedTo := some b.id })
        let bots1 := updateBot s.bots b.id incLoad
        let q2 := if orc b.id then q1
          else updateTask q1 tid (fun u =>
            { u with status := TaskStatus.failed,
                     error := some "Failed to assign task to bot" })
        { s with taskQueue := q2, bots := bots1,
                 timers := s.timers ++ [(now + taskTimeoutMs, tid)] }

/-- Queue cleanup at the end of processTasks: keep only active tasks. -/
def cleanupQueue (q : List RTask) : List RTask :=
  q.filter (fun t =>
    t.status = TaskStatus.pending || t.status = TaskStatus.assigned ||
    t.status = TaskStatus.in_progress)

/-- processTasks: on a nonempty queue, sort a snapshot by priority
descending then creation ascending, run the assignment loop over it in
that order, and drop completed/failed tasks from the queue. -/
def processTasks (orc : String → Bool) (now : Nat) (s : RouterState) : RouterState :=
  if s.taskQueue.isEmpty then s
  else
    let order := (sortTasks s.taskQueue).map (fun t => t.id)
    let s1 := order.foldl (procStep orc now) s
    { s1 with taskQueue := cleanupQueue s1.taskQueue }

/-- JS Map.set on the bot map, keyed by the id field. -/
def botSet : List BotStatus → BotStatus → List BotStatus
  | [], b => [b]
  | x :: rest, b => if x.id = b.id then b :: rest else x :: botSet rest b

/-- registerBot: adds or overwrites a bot entry with load 0 and
isAvailable true. -/
def registerBot (now : Nat) (s : RouterState) (id name : String)
    (caps : List String) : RouterState :=
  let b : BotStatus :=
    { id := id, name := name, capabilities := caps, load := 0,
      lastHeartbeat := now, isAvailable := true }
  { s with bots := botSet s.bots b }

/-- submitTask: append the new pending task and trigger an immediate
processTasks pass.  The generated id is a parameter. -/
def submitTask (orc : String → Bool) (now : Nat) (s : RouterState)
    (newId ttype : String) (priority : Int) (caps : List String)
    (payload : String) : RouterState × String :=
  let newTask : RTask :=
    { id := newId, type := ttype, priority := priority,
      requiredCapabilities := caps, data := payload, createdAt := now,
      status := TaskStatus.pending }
  (processTasks orc now { s with taskQueue := s.taskQueue ++ [newTask] }, newId)

/-- getTaskStatus: in-progress queue first, then the completed archive. -/
def getTaskStatus (s : RouterState) (tid : String) : Option RTask :=
  match s.taskQueue.find? (fun t => t.id = tid) with
  | some t => some t
  | none => mapLookup s.completedTasks tid

/-- Body of the setTimeout callback armed by setTaskTimeout: if the task is
still in the queue and not terminal, mark it failed with a timeout error
and release the load of its assigned bot. -/
def fireTaskTimeout (s : RouterState) (tid : String) : RouterState :=
  match s.taskQueue.find? (fun t => t.id = tid) with
  | none => s
  | some t =>
    if t.status = TaskStatus.completed ∨ t.status = TaskStatus.failed then s
    else
      let q := updateTask s.taskQueue tid (fun u =>
        { u with status := TaskStatus.failed, error := some "Task timed out" })
      let bots :=
        match t.assignedTo with
        | some bid => updateBot s.bots bid decLoad
        | none => s.bots
      { s with taskQueue := q, bots := bots }

/-- Fire every armed timeout due at or before the given instant, in arming
order, removing the fired entries. -/
def fireDueTimers (now : Nat) (s : RouterState) : RouterState :=
  let due := s.timers.filter (fun e => e.1 ≤ now)
  let rest := s.timers.filter (fun e => ¬ e.1 ≤ now)
  let s1 := due.foldl (fun st e => fireTaskTimeout st e.2) s
  { s1 with timers := rest }

/-- Payload of a task_update message as destructured by handleTaskUpdate. -/
structure TaskUpdateMsg where
  taskId : Option String
  status : TaskStatus
  result : Option String := none
  error : Option String := none
deriving DecidableEq, Repr

/-- Body of handleTaskUpdate up to (not including) the trailing
processTasks trigger.  A message without a task id, or whose id is not in
the live queue, is logged and discarded.  Otherwise the queue entry status
is overwritten unconditionally; on a terminal status a copy is archived
and the load of the bot identified by the sending connection id (not the
assignedTo field) is released. -/
def handleTaskUpdateCore (s : RouterState) (botId : String) (m : TaskUpdateMsg) :
    RouterState :=
  match m.taskId with
  | none => s
  | some tid =>
    match s.taskQueue.find? (fun t => t.id = tid) with
    | none => s
    | some t =>
      let q := updateTask s.taskQueue tid (fun u => { u with status := m.status })
      if m.status = TaskStatus.completed ∨ m.status = TaskStatus.failed then
        let archived : RTask :=
          { t with status := m.status,
                   result := if m.status = TaskStatus.completed then m.result else none,
                   error := if m.status = TaskStatus.failed then
                              some (m.error.getD "Unknown error")
                            else none }
        { s with taskQueue := q,
                 completedTasks := mapSet s.completedTasks tid archived,
                 bots := updateBot s.bots botId decLoad }
      else
        { s with taskQueue := q }

/-- handleTaskUpdate: the early-return cases leave the state untouched;
otherwise the core update runs followed by the processTasks trigger. -/
def handleTaskUpdate (orc : String → Bool) (now : Nat) (s : RouterState)
    (botId : String) (m : TaskUpdateMsg) : RouterState :=
  match m.taskId with
  | none => s
  | some tid =>
    match s.taskQueue.find? (fun t => t.id = tid) with
    | none => s
    | some _ => processTasks orc now (handleTaskUpdateCore s botId m)

/-! ### TaskOrchestrator data model (src/services/TaskOrchestrator.ts) -/

/-- Orchestrator task records.  The dependencies list is always empty at
creation and never consulted by the embedded operations, so it is omitted;
the metadata block is inlined. -/
structure OTask where
  id : String
  type : String
  status : TaskStatus
  priority : Int
  requiredCapabilities : List String
  data : String
  result : Option String := none
  error : Option String := none
  parentTaskId : Option String := none
  depth : Nat := 0
  retryCount : Nat := 0
  maxRetries : Nat := 3
  timeoutMs : Nat := 300000
  createdAt : Nat
  updatedAt : Nat
deriving DecidableEq, Repr

/-- State owned by the TaskOrchestrator singleton. -/
structure OrchState where
  activeTasks : List (String × OTask)
  completedTasks : List (String × OTask)
deriving DecidableEq, Repr

/-- Option bag accepted by createTask. -/
structure CreateOptions where
  priority : Option Int := none
  requiredCapabilities : Option (List String) := none
  parentTaskId : Option String := none
  maxRetries : Option Nat := none
  timeoutMs : Option Nat := none

/-- queueTask: hand the task to the routing service.  The submit outcome is
the oracle argument; on success the task is marked assigned in place, on a
thrown submission error the task is marked failed with the error message,
removed from the active set and archived. -/
def queueTask (submitRes : Except String Unit) (now : Nat) (s : OrchState)
    (t : OTask) : OrchState :=
  match submitRes with
  | Except.ok _ =>
    let t1 := { t with status := TaskStatus.assigned, updatedAt := now }
    { s with activeTasks := mapSet s.activeTasks t.id t1 }
  | Except.error e =>
    let t1 := { t with status := TaskStatus.failed, error := some e,
                       updatedAt := now }
    { activeTasks := mapErase s.activeTasks t.id,
      completedTasks := mapSet s.completedTasks t.id t1 }

/-- createTask: build the task with defaulted options (priority 5, empty
capabilities, maxRetries 3, timeoutMs 300000, depth parent+1 or 0), store
it in the active set, then queue it.  The generated id is a parameter. -/
def createTask (submitRes : Except String Unit) (now : Nat) (s : OrchState)
    (taskId ttype payload : String) (opts : CreateOptions) : OrchState × String :=
  let depth : Nat :=
    match opts.parentTaskId with
    | some pid => (((mapLookup s.activeTasks pid).map (fun p => p.depth)).getD 0) + 1
    | none => 0
  let task : OTask :=
    { id := taskId, type := ttype, status := TaskStatus.pending,
      priority := opts.priority.getD 5,
      requiredCapabilities := opts.requiredCapabilities.getD [],
      data := payload,
      parentTaskId := opts.parentTaskId,
      depth := depth,
      maxRetries := opts.maxRetries.getD 3,
      timeoutMs := opts.timeoutMs.getD 300000,
      createdAt := now, updatedAt := now }
  let s1 := { s with activeTasks := mapSet s.activeTasks taskId task }
  (queueTask submitRes now s1 task, taskId)

/-- getTaskStatus of the orchestrator: active set first, then archive. -/
def getOrchTaskStatus (s : OrchState) (tid : String) : Option OTask :=
  match mapLookup s.activeTasks tid with
  | some t => some t
  | none => mapLookup s.completedTasks tid

/-- Payload of a task_result message as destructured by handleTaskResult. -/
structure TaskResultMsg where
  taskId : String
  result : Option String := none
  error : Option String := none
deriving DecidableEq, Repr

/-- handleTaskResult: a result for a task id absent from the active set is
logged and discarded.  Otherwise the task is marked failed when the message
carries an error and completed otherwise, the result and error fields are
recorded, and the task moves from the active set to the archive. -/
def handleTaskResult (s : OrchState) (m : TaskResultMsg) : OrchState :=
  match mapLookup s.activeTasks m.taskId with
  | none => s
  | some t =>
    let t1 : OTask :=
      { t with status := if m.error.isSome then TaskStatus.failed
                         else TaskStatus.completed,
               result := m.result,
               error := match m.error with
                        | some e => some e
                        | none => t.error }
    { activeTasks := mapErase s.activeTasks m.taskId,
      completedTasks := mapSet s.completedTasks m.taskId t1 }

/-! ### Connection registry heartbeat (WebSocketService in
src/services/HeartbeatService.ts) -/

/-- Registered connection entries; the raw socket handle, ip address and
user agent are outside the model. -/
structure ServiceConnection where
  id : String
  serviceName : String
  serviceType : String
  connectedAt : Nat
  lastPing : Nat
deriving DecidableEq, Repr

/-- Liveness timeout of the heartbeat sweep: 90000 ms. -/
def heartbeatTimeoutMs : Nat := 90000

/-- Observable effects emitted by one heartbeat sweep. -/
inductive SweepEvent where
  | offline (serviceName : String)
  | ping (connectionId : String)
deriving DecidableEq, Repr

/-- Body of the startHeartbeat interval callback: every connection silent
for longer than the timeout is terminated, removed from the registry, and
an offline service_status broadcast is emitted for it; the others are sent
a ping. -/
def heartbeatSweep (now : Nat) (conns : List ServiceConnection) :
    List ServiceConnection × List SweepEvent :=
  match conns with
  | [] => ([], [])
  | c :: rest =>
    if now - c.lastPing > heartbeatTimeoutMs then
      ((heartbeatSweep now rest).1,
        SweepEvent.offline c.serviceName :: (heartbeatSweep now rest).2)
    else
      (c :: (heartbeatSweep now rest).1,
        SweepEvent.ping c.id :: (heartbeatSweep now rest).2)

/-- handlePing: refresh the lastPing stamp of the sending connection (a
pong reply is sent; replies are outside the state model). -/
def handlePing (now : Nat) (conns : List ServiceConnection)
    (connectionId : String) : List ServiceConnection :=
  conns.map (fun c => if c.id = connectionId then { c with lastPing := now } else c)

/-! ### ResilienceService (health checks, circuit breakers, recovery) -/

/-- Per-subsystem health entry; the free-form metrics record is omitted
(written but never read by the embedded operations). -/
structure ServiceStatus where
  name : String
  isHealthy : Bool
  lastCheck : Nat
  error : Option String := none
deriving DecidableEq, Repr

/-- Per-subsystem circuit breaker state. -/
structure CircuitBreakerState where
  isOpen : Bool
  failureCount : Nat
  lastFailureTime : Option Nat
  successCount : Nat
  lastSuccessTime : Option Nat
deriving DecidableEq, Repr

/-- Fresh breaker state used when a subsystem has no entry yet. -/
def defaultCircuit : CircuitBreakerState :=
  { isOpen := false, failureCount := 0, lastFailureTime := none,
    successCount := 0, lastSuccessTime := none }

/-- Breaker open threshold: 5 consecutive failure events. -/
def circuitBreakerThreshold : Nat := 5

/-- Breaker reset window: 300000 ms. -/
def circuitBreakerResetMs : Nat := 300000

/-- Registered recovery actions.  The applicability predicate is kept as a
function field exactly as in the source; lastTriggered starts unset. -/
structure RecAction where
  type : String
  target : String
  priority : Nat
  condition : ServiceStatus → Bool
  cooldownMs : Nat
  lastTriggered : Option Nat := none

/-- State owned by the ResilienceService singleton. -/
structure ResilState where
  serviceStatus : List (String × ServiceStatus)
  circuitBreakers : List (String × CircuitBreakerState)
  recoveryActions : List RecAction

/-- recordCircuitBreakerEvent: a success increments successCount, stamps
lastSuccessTime, zeroes failureCount once successCount reaches the
threshold, and unconditionally closes an open circuit; a failure
increments failureCount, stamps lastFailureTime, zeroes successCount, and
opens a closed circuit once failureCount reaches the threshold. -/
def recordCircuitBreakerEvent (now : Nat) (cbs : List (String × CircuitBreakerState))
    (serviceId : String) (isSuccess : Bool) : List (String × CircuitBreakerState) :=
  let circuit := (mapLookup cbs serviceId).getD defaultCircuit
  let circuit :=
    if isSuccess then
      let c1 := { circuit with successCount := circuit.successCount + 1,
                               lastSuccessTime := some now }
      let c2 := if c1.successCount ≥ circuitBreakerThreshold then
                  { c1 with failureCount := 0 }
                else c1
      if c2.isOpen then { c2 with isOpen := false } else c2
    else
      let c1 := { circuit with failureCount := circuit.failureCount + 1,
                               lastFailureTime := some now,
                               successCount := 0 }
      if ¬ c1.isOpen ∧ c1.failureCount ≥ circuitBreakerThreshold then
        { c1 with isOpen := true }
      else c1
  mapSet cbs serviceId circuit

/-- checkService: run the health probe of one registered subsystem.  A
normally returned verdict updates the status entry and records a breaker
event only when the healthy flag flipped; a thrown probe marks the
subsystem unhealthy with the error captured and always records a breaker
failure event.  Unregistered ids are ignored. -/
def checkService (now : Nat) (s : ResilState) (serviceId : String)
    (probe : Except String Bool) : ResilState :=
  match mapLookup s.serviceStatus serviceId with
  | none => s
  | some status =>
    match probe with
    | Except.ok isHealthy =>
      let wasHealthy := status.isHealthy
      let status1 := { status with isHealthy := isHealthy, lastCheck := now }
      let s1 := { s with serviceStatus := mapSet s.serviceStatus serviceId status1 }
      if wasHealthy ≠ isHealthy then
        { s1 with circuitBreakers :=
            recordCircuitBreakerEvent now s1.circuitBreakers serviceId isHealthy }
      else s1
    | Except.error e =>
      let status1 := { status with isHealthy := false, lastCheck := now,
                                   error := some e }
      { s with serviceStatus := mapSet s.serviceStatus serviceId status1,
               circuitBreakers :=
                 recordCircuitBreakerEvent now s.circuitBreakers serviceId false }

/-- Ordering used to sort recovery actions: ascending priority (stable, so
registration order breaks ties, matching the JS comparator a.priority -
b.priority). -/
def prioLE (a b : RecAction) : Prop := a.priority ≤ b.priority

instance : DecidableRel prioLE := fun a b =>
  inferInstanceAs (Decidable (a.priority ≤ b.priority))

instance : IsTotal RecAction prioLE := ⟨fun a b => Nat.le_total a.priority b.priority⟩

instance : IsTrans RecAction prioLE := ⟨fun _ _ _ h h2 => Nat.le_trans h h2⟩

/-- Registered actions are identified by (target, priority); the in-place
mutation of action.lastTriggered becomes an update of the matching entries
of the shared action list. -/
def updateAction (acts : List RecAction) (target : String) (priority : Nat)
    (f : RecAction → RecAction) : List RecAction :=
  acts.map (fun a => if a.target = target ∧ a.priority = priority then f a else a)

/-- Result oracle for recovery-action execution, keyed by (target,
priority): ok true = action succeeded, ok false = action reported failure,
error = the action function threw. -/
def RecResults := String → Nat → Except String Bool

/-- Inner loop of triggerRecoveryActions over the filtered, sorted actions
of one subsystem.  An action still within its cooldown since lastTriggered
is skipped.  Otherwise the action runs: a normal return stamps
lastTriggered (on the shared list) and a success breaks the loop; a
reported failure continues; a thrown action is caught and logged and the
loop continues, with lastTriggered left untouched because the stamp sits
after the await inside the try block.  Returns the updated shared action
list and the (target, priority) keys of the actions that were executed. -/
def runActions (now : Nat) (res : RecResults) (acts : List RecAction)
    (allActs : List RecAction) : List RecAction × List (String × Nat) :=
  match acts with
  | [] => (allActs, [])
  | a :: rest =>
    let skip : Bool :=
      match a.lastTriggered with
      | some t => now - t < a.cooldownMs
      | none => false
    if skip then runActions now res rest allActs
    else
      match res a.target a.priority with
      | Except.ok success =>
        let allActs1 := updateAction allActs a.target a.priority
          (fun x => { x with lastTriggered := some now })
        if success then (allActs1, [(a.target, a.priority)])
        else
          let (fin, ex) := runActions now res rest allActs1
          (fin, (a.target, a.priority) :: ex)
      | Except.error _ =>
        let (fin, ex) := runActions now res rest allActs
        (fin, (a.target, a.priority) :: ex)

/-- Per-subsystem part of triggerRecoveryActions: filter the registered
actions by target and applicability, sort by priority ascending; when the
breaker is open, skip the subsystem while the reset window since the last
failure has not elapsed and otherwise force the breaker closed with the
failure count zeroed; then run the action loop. -/
def triggerRecoveryForService (now : Nat) (res : RecResults) (s : ResilState)
    (id : String) (status : ServiceStatus) : ResilState × List (String × Nat) :=
  let actions := List.insertionSort prioLE
    (s.recoveryActions.filter (fun a => a.target = id && a.condition status))
  if actions.isEmpty then (s, [])
  else
    let runAll (s : ResilState) : ResilState × List (String × Nat) :=
      let (acts1, ex) := runActions now res actions s.recoveryActions
      ({ s with recoveryActions := acts1 }, ex)
    match mapLookup s.circuitBreakers id with
    | some circuit =>
      if circuit.isOpen then
        let withinReset : Bool :=
          match circuit.lastFailureTime with
          | some t => now - t < circuitBreakerResetMs
          | none => false
        if withinReset then (s, [])
        else
          runAll { s with circuitBreakers := (mapSet s.circuitBreakers id
            { circuit with isOpen := false, failureCount := 0 }) }
      else runAll s
    | none => runAll s

/-- triggerRecoveryActions: iterate over the subsystems unhealthy at the
start of the cycle, threading the action list through the per-subsystem
runs. -/
def triggerRecoveryActions (now : Nat) (res : RecResults) (s : ResilState) :
    ResilState × List (String × Nat) :=
  let unhealthy := s.serviceStatus.filter (fun kv => ¬ kv.2.isHealthy)
  unhealthy.foldl
    (fun acc kv =>
      let (s1, ex) := triggerRecoveryForService now res acc.1 kv.1 kv.2
      (s1, acc.2 ++ ex))
    (s, [])

/-! ### The service:restart message path -/

/-- Minimal JS value model for message payloads: the inbound dispatch of
the registry hands every handler the connection id string as first
argument and the parsed payload as second. -/
inductive JsValue where
  | jstr (s : String)
  | jnum (n : Int)
  | jbool (b : Bool)
  | jobj (fields : List (String × JsValue))
  | jnull

/-- Property access: only objects yield fields, everything else gives
undefined. -/
def JsValue.getField : JsValue → String → Option JsValue
  | JsValue.jobj fields, k => mapLookup fields k
  | _, _ => none

/-- JS falsiness of a present value. -/
def jsFalsy : JsValue → Bool
  | JsValue.jstr s => s = ""
  | JsValue.jnum n => n = 0
  | JsValue.jbool b => ¬ b
  | JsValue.jnull => true
  | JsValue.jobj _ => false

/-- Action search of the manual restart handler: the registered actions
with the requested target, sorted by priority ascending, executed in order
until the first success, with no cooldown consultation and no lastTriggered
stamp.  Returns the keys of the executed actions. -/
def serviceRestartActions (res : RecResults) (acts : List RecAction)
    (service : String) : List (String × Nat) :=
  go (List.insertionSort prioLE (acts.filter (fun a => a.target = service)))
where
  go : List RecAction → List (String × Nat)
  | [] => []
  | a :: rest =>
    match res a.target a.priority with
    | Except.ok true => [(a.target, a.priority)]
    | Except.ok false => (a.target, a.priority) :: go rest
    | Except.error _ => (a.target, a.priority) :: go rest

/-- The service:restart handler body: it destructures the service name from
its first parameter and returns at once when that is absent or falsy; a
non-string service name matches no action target.  The handler neither
checks cooldowns nor stamps lastTriggered. -/
def serviceRestartHandler (res : RecResults) (acts : List RecAction)
    (dataArg : JsValue) : List (String × Nat) :=
  match dataArg.getField "service" with
  | none => []
  | some v =>
    if jsFalsy v then []
    else
      match v with
      | JsValue.jstr service => serviceRestartActions res acts service
      | _ => []

/-- Dispatch of one inbound service:restart message: the registry invokes
the registered handler as handler(connectionId, data), and the handler
declares a single parameter, so that parameter is bound to the connection
id string and the payload is dropped. -/
def dispatchServiceRestart (res : RecResults) (acts : List RecAction)
    (connectionId : String) (_payload : JsValue) : List (String × Nat) :=
  serviceRestartHandler res acts (JsValue.jstr connectionId)

/-! ### Concrete states used by the counterexamples -/

/-- Empty router state. -/
def emptyRouter : RouterState :=
  { bots := [], taskQueue := [], completedTasks := [], timers := [] }

/-- Dispatch oracle under which every socket send succeeds. -/
def orcAlwaysOk : String → Bool := fun _ => true

/-- Dispatch oracle under which every socket send throws. -/
def orcAlwaysFail : String → Bool := fun _ => false

/-- One bot that only speaks communication, and one submitted task that
requires relay: no registered bot ever matches. -/
def unroutableState : RouterState :=
  let s1 := registerBot 0 emptyRouter "bot1" "Bot One" ["communication"]
  (submitTask orcAlwaysOk 0 s1 "t1" "planning" 5 ["relay"] "p").1

/-- One relay bot and one submitted task with an empty required-capability
list. -/
def emptyCapsState : RouterState :=
  let s1 := registerBot 0 emptyRouter "bot1" "Bot One" ["relay"]
  (submitTask orcAlwaysOk 0 s1 "t1" "planning" 5 [] "p").1

/-- One relay bot and one matching task, submitted and therefore assigned,
with the completion timeout armed for instant 300000. -/
def assignedState : RouterState :=
  let s1 := registerBot 0 emptyRouter "bot1" "Bot One" ["relay"]
  (submitTask orcAlwaysOk 0 s1 "t1" "planning" 5 ["relay"] "p").1

/-- The assigned state after its timeout has fired. -/
def timedOutState : RouterState := fireDueTimers 300000 assignedState

/-- The task record submitted in the concrete states above. -/
def tRelay : RTask :=
  { id := "t1", type := "planning", priority := 5,
    requiredCapabilities := ["relay"], data := "p", createdAt := 0,
    status := TaskStatus.pending }

/-- The relay bot as registered at instant 0. -/
def relayBot : BotStatus :=
  { id := "bot1", name := "Bot One", capabilities := ["relay"], load := 0,
    lastHeartbeat := 0, isAvailable := true }

/-- Router state in which tRelay is queued but not yet processed. -/
def readyState : RouterState :=
  { bots := [relayBot], taskQueue := [tRelay], completedTasks := [],
    timers := [] }

/-- The queue entry of the assigned state: tRelay assigned to bot1. -/
def assignedTask : RTask :=
  { tRelay with status := TaskStatus.assigned, assignedTo := some "bot1" }

/-- Health entry for the websocket subsystem as initialized at startup. -/
def wsHealthy : ServiceStatus :=
  { name := "WebSocket Service", isHealthy := true, lastCheck := 0 }

/-- The same entry once marked unhealthy. -/
def wsUnhealthy : ServiceStatus :=
  { name := "WebSocket Service", isHealthy := false, lastCheck := 0 }

/-- The websocket restart action as registered at startup. -/
def wsRestartAction : RecAction :=
  { type := "restart", target := "websocket", priority := 1,
    condition := fun status => ¬ status.isHealthy, cooldownMs := 60000 }

/-- Monitor state with a healthy websocket subsystem, no breaker entries
and the websocket restart action registered. -/
def resilHealthy : ResilState :=
  { serviceStatus := [("websocket", wsHealthy)],
    circuitBreakers := [],
    recoveryActions := [wsRestartAction] }

/-- Monitor state with the websocket subsystem already unhealthy. -/
def resilUnhealthy : ResilState :=
  { serviceStatus := [("websocket", wsUnhealthy)],
    circuitBreakers := [],
    recoveryActions := [wsRestartAction] }

/-- Five consecutive health checks whose probe returns false, starting from
the healthy state. -/
def fiveFalseChecks : ResilState :=
  checkService 5 (checkService 4 (checkService 3 (checkService 2 (checkService 1
    resilHealthy "websocket" (Except.ok false))
    "websocket" (Except.ok false)) "websocket" (Except.ok false))
    "websocket" (Except.ok false)) "websocket" (Except.ok false)

/-- Recovery-result oracle under which every action function throws. -/
def errRes : RecResults := fun _ _ => Except.error "boom"

/-- First recovery attempt against the unhealthy websocket subsystem, with
the action throwing. -/
def recovAfterThrow : ResilState × List (String × Nat) :=
  triggerRecoveryForService 1000 errRes resilUnhealthy "websocket" wsUnhealthy

/-- Second recovery attempt 500 ms later, well inside the 60000 ms
cooldown of the action. -/
def recovSecond : ResilState × List (String × Nat) :=
  triggerRecoveryForService 1500 errRes recovAfterThrow.1 "websocket" wsUnhealthy

/-! ### Helper lemmas about the map and queue primitives -/

lemma mapLookup_mapSet_self {α : Type} (m : List (String × α)) (k : String) (v : α) :
    mapLookup (mapSet m k v) k = some v := by
  induction m with
  | nil => simp [mapSet, mapLookup]
  | cons kv rest ih =>
    by_cases h : kv.1 = k
    · simp [mapSet, mapLookup, h]
    · simp [mapSet, mapLookup, h, ih]

lemma mapLookup_mapErase_self {α : Type} (m : List (String × α)) (k : String) :
    mapLookup (mapErase m k) k = none := by
  induction m with
  | nil => simp [mapErase, mapLookup]
  | cons kv rest ih =>
    by_cases h : kv.1 = k
    · simpa [mapErase, List.filter_cons, h] using ih
    · simpa [mapErase, mapLookup, List.filter_cons, h] using ih

lemma find?_eq_some_of_mem_nodup {q : List RTask} {t : RTask}
    (hmem : t ∈ q) (hnd : (q.map (fun u => u.id)).Nodup) :
    q.find? (fun u => u.id = t.id) = some t := by
  induction q with
  | nil => cases hmem
  | cons u rest ih =>
    rw [List.map_cons, List.nodup_cons] at hnd
    rcases List.mem_cons.mp hmem with h | h
    · subst h
      simp [List.find?_cons]
    · have hne : u.id ≠ t.id := by
        intro he
        exact hnd.1 (he ▸ List.mem_map_of_mem (fun v => v.id) h)
      simpa [List.find?_cons, hne] using ih h hnd.2

lemma find?_updateTask_self {q : List RTask} {tid : String} {t : RTask}
    {f : RTask → RTask} (h : q.find? (fun u => u.id = tid) = some t)
    (hf : ∀ u, (f u).id = u.id) :
    (updateTask q tid f).find? (fun u => u.id = tid) = some (f t) := by
  induction q with
  | nil => simp at h
  | cons u rest ih =>
    by_cases hu : u.id = tid
    · have ht : u = t := by simpa [List.find?_cons, hu] using h
      subst ht
      simp [updateTask, hu, List.find?_cons, hf u]
    · have h' : rest.find? (fun u => u.id = tid) = some t := by
        simpa [List.find?_cons, hu] using h
      simpa [updateTask, hu, List.find?_cons] using ih h'

lemma find?_updateTask_ne {q : List RTask} {tid tid' : String} {f : RTask → RTask}
    (hne : tid ≠ tid') (hf : ∀ u, (f u).id = u.id) :
    (updateTask q tid' f).find? (fun u => u.id = tid) =
      q.find? (fun u => u.id = tid) := by
  induction q with
  | nil => simp [updateTask]
  | cons u rest ih =>
    by_cases hu : u.id = tid'
    · have h3 : tid' ≠ tid := fun he => hne he.symm
      have h1 : (f u).id ≠ tid := by rw [hf u, hu]; exact h3
      have h2 : u.id ≠ tid := by rw [hu]; exact h3
      simp [updateTask, hu, List.find?_cons, h1, h2, h3]
    · by_cases hut : u.id = tid
      · simp [updateTask, hu, List.find?_cons, hut, hne]
      · simpa [updateTask, hu, List.find?_cons, hut] using ih

lemma mem_updateTask {q : List RTask} {tid : String} {f : RTask → RTask} {u' : RTask}
    (h : u' ∈ updateTask q tid f) : u' ∈ q ∨ ∃ u ∈ q, u.id = tid ∧ u' = f u := by
  induction q with
  | nil => simp [updateTask] at h
  | cons u rest ih =>
    by_cases hu : u.id = tid
    · rw [updateTask, if_pos hu] at h
      rcases List.mem_cons.mp h with h | h
      · exact Or.inr ⟨u, List.mem_cons_self u rest, hu, h⟩
      · exact Or.inl (List.mem_cons_of_mem _ h)
    · rw [updateTask, if_neg hu] at h
      rcases List.mem_cons.mp h with h | h
      · exact Or.inl (by simp [h])
      · rcases ih h with h1 | ⟨v, hv, hvid, hve⟩
        · exact Or.inl (List.mem_cons_of_mem _ h1)
        · exact Or.inr ⟨v, List.mem_cons_of_mem _ hv, hvid, hve⟩

lemma updateBot_map_capabilities (bs : List BotStatus) (bid : String)
    (f : BotStatus → BotStatus) (hf : ∀ b, (f b).capabilities = b.capabilities) :
    (updateBot bs bid f).map (fun b => b.capabilities) =
      bs.map (fun b => b.capabilities) := by
  induction bs with
  | nil => rfl
  | cons b rest ih =>
    by_cases h : b.id = bid <;> simp [updateBot, h, hf b] <;>
      simpa [updateBot] using ih

/-! ### Lemmas about findSuitableBot and the stable sorts -/

lemma qualifies_eq_false_of_nosubset {t : RTask} {b : BotStatus}
    (h : listSubset t.requiredCapabilities b.capabilities = false) :
    qualifies t b = false := by
  simp [qualifies, h]

lemma findSuitableBot_eq_none (s : RouterState) (t : RTask)
    (h : ∀ b ∈ s.bots, qualifies t b = false) : findSuitableBot s t = none := by
  unfold findSuitableBot
  split
  · rfl
  · have hf : s.bots.filter (fun b => qualifies t b) = [] := by
      rw [List.filter_eq_nil_iff]
      intro b hb
      simp [h b hb]
    rw [hf]
    rfl

lemma head_insertionSort_loadLE {l : List BotStatus} {b : BotStatus}
    (h : (List.insertionSort loadLE l).head? = some b) :
    b ∈ l ∧ ∀ x ∈ l, b.load ≤ x.load := by
  cases hs : List.insertionSort loadLE l with
  | nil => rw [hs] at h; cases h
  | cons hd tl =>
    rw [hs] at h
    have hb : hd = b := by simpa using h
    subst hb
    have hsort := List.sorted_insertionSort loadLE l
    rw [hs] at hsort
    have hperm := List.perm_insertionSort loadLE l
    rw [hs] at hperm
    refine ⟨hperm.mem_iff.mp (List.mem_cons_self _ _), ?_⟩
    intro x hx
    rcases List.mem_cons.mp (hperm.mem_iff.mpr hx) with h | h
    · rw [h]
    · exact List.rel_of_sorted_cons hsort x h

lemma findSuitableBot_spec {s : RouterState} {t : RTask} {b : BotStatus}
    (h : findSuitableBot s t = some b) :
    b ∈ s.bots ∧ qualifies t b = true ∧
    ∀ x ∈ s.bots, qualifies t x = true → b.load ≤ x.load := by
  unfold findSuitableBot at h
  split at h
  · cases h
  · obtain ⟨hmem, hmin⟩ := head_insertionSort_loadLE h
    obtain ⟨hbots, hq⟩ := List.mem_filter.mp hmem
    exact ⟨hbots, hq, fun x hx hqx => hmin x (List.mem_filter.mpr ⟨hx, hqx⟩)⟩

lemma taskLE_of_sameKey {p : Int} {c : Nat} {a b : RTask}
    (ha : sameKey p c a = true) (hb : sameKey p c b = true) : taskLE a b := by
  simp [sameKey] at ha hb
  exact Or.inr ⟨ha.1.trans hb.1.symm, by rw [ha.2, hb.2]⟩

lemma filter_orderedInsert_sameKey (p : Int) (c : Nat) (a : RTask) (l : List RTask) :
    (List.orderedInsert taskLE a l).filter (sameKey p c) =
      if sameKey p c a then a :: l.filter (sameKey p c)
      else l.filter (sameKey p c) := by
  induction l with
  | nil => simp [List.orderedInsert, List.filter_cons]
  | cons b l ih =>
    simp only [List.orderedInsert]
    by_cases hle : taskLE a b
    · rw [if_pos hle]
      simp [List.filter_cons]
    · rw [if_neg hle]
      by_cases hb : sameKey p c b
      · have ha : ¬ sameKey p c a = true := by
          intro ha
          exact hle (taskLE_of_sameKey ha hb)
        simp [List.filter_cons, hb, ha] at ih ⊢
        exact ih
      · simp [List.filter_cons, hb] at ih ⊢
        rw [ih]

lemma filter_sortTasks_sameKey (p : Int) (c : Nat) (q : List RTask) :
    (sortTasks q).filter (sameKey p c) = q.filter (sameKey p c) := by
  induction q with
  | nil => rfl
  | cons t q ih =>
    have : sortTasks (t :: q) = List.orderedInsert taskLE t (sortTasks q) := rfl
    rw [this, filter_orderedInsert_sameKey]
    by_cases h : sameKey p c t <;> simp [List.filter_cons, h, ih]

/-! ### Structural lemmas about the processTasks pass -/

lemma procStep_completedTasks (orc : String → Bool) (now : Nat)
    (s : RouterState) (tid : String) :
    (procStep orc now s tid).completedTasks = s.completedTasks := by
  unfold procStep
  cases h : s.taskQueue.find? (fun t => t.id = tid) with
  | none => rfl
  | some t =>
    by_cases hp : t.status ≠ TaskStatus.pending
    · simp [hp]
    · simp only [hp, if_false]
      cases hb : findSuitableBot s t with
      | none => simp [hb]
      | some b => by_cases ho : orc b.id <;> simp [hb, ho]

lemma foldl_procStep_completedTasks (orc : String → Bool) (now : Nat)
    (ids : List String) (s : RouterState) :
    (ids.foldl (procStep orc now) s).completedTasks = s.completedTasks := by
  induction ids generalizing s with
  | nil => rfl
  | cons i rest ih =>
    rw [List.foldl_cons, ih, procStep_completedTasks]

lemma procStep_nomatch (orc : String → Bool) (now : Nat) (s : RouterState)
    (t : RTask) (hfind : s.taskQueue.find? (fun u => u.id = t.id) = some t)
    (hp : t.status = TaskStatus.pending)
    (hb : findSuitableBot s t = none) :
    procStep orc now s t.id = s := by
  unfold procStep
  rw [hfind]
  simp [hp, hb]

lemma procStep_assigns (orc : String → Bool) (now : Nat) (s : RouterState)
    (t : RTask) (b : BotStatus)
    (hfind : s.taskQueue.find? (fun u => u.id = t.id) = some t)
    (hp : t.status = TaskStatus.pending)
    (hb : findSuitableBot s t = some b)
    (ho : orc b.id = true) :
    (procStep orc now s t.id).taskQueue.find? (fun u => u.id = t.id) =
      some { t with status := TaskStatus.assigned, assignedTo := some b.id } := by
  unfold procStep
  rw [hfind]
  simp only [hp, hb, ho, ne_eq, not_true_eq_false, if_false, if_true, ite_true, ite_false]
  exact find?_updateTask_self hfind (fun u => rfl)

lemma mem_cleanupQueue_of_pending {q : List RTask} {t : RTask}
    (hm : t ∈ q) (hp : t.status = TaskStatus.pending) : t ∈ cleanupQueue q :=
  List.mem_filter.mpr ⟨hm, by simp [hp]⟩

lemma procStep_inv_ne (orc : String → Bool) (now : Nat) (st : RouterState)
    (i : String) (tid : String) (hne : i ≠ tid) :
    (procStep orc now st i).taskQueue.find? (fun u => u.id = tid) =
      st.taskQueue.find? (fun u => u.id = tid) ∧
    (procStep orc now st i).bots.map (fun b => b.capabilities) =
      st.bots.map (fun b => b.capabilities) ∧
    ∀ e ∈ (procStep orc now st i).timers, e ∈ st.timers ∨ e.2 = i := by
  have hne' : tid ≠ i := fun he => hne he.symm
  unfold procStep
  cases h : st.taskQueue.find? (fun u => u.id = i) with
  | none => exact ⟨rfl, rfl, fun e he => Or.inl he⟩
  | some u =>
    dsimp only
    by_cases hp : u.status ≠ TaskStatus.pending
    · rw [if_pos hp]
      exact ⟨rfl, rfl, fun e he => Or.inl he⟩
    · rw [if_neg hp]
      cases hb : findSuitableBot st u with
      | none => exact ⟨rfl, rfl, fun e he => Or.inl he⟩
      | some b =>
        dsimp only
        by_cases ho : orc b.id
        · rw [if_pos ho]
          refine ⟨?_, ?_, ?_⟩
          · apply find?_updateTask_ne hne'
            intro u
            rfl
          · exact updateBot_map_capabilities _ _ _ (fun b => rfl)
          · intro e he
            rcases List.mem_append.mp he with h1 | h1
            · exact Or.inl h1
            · right
              simp at h1
              rw [h1]
        · rw [if_neg ho]
          refine ⟨?_, ?_, ?_⟩
          · refine Eq.trans (b := List.find? (fun u => u.id = tid)
                (updateTask st.taskQueue i (fun u =>
                  { u with status := TaskStatus.assigned, assignedTo := some b.id })))
              ?_ ?_
            · apply find?_updateTask_ne hne'
              intro u
              rfl
            · apply find?_updateTask_ne hne'
              intro u
              rfl
          · exact updateBot_map_capabilities _ _ _ (fun b => rfl)
          · intro e he
            rcases List.mem_append.mp he with h1 | h1
            · exact Or.inl h1
            · right
              simp at h1
              rw [h1]

lemma foldl_procStep_untouched (orc : String → Bool) (now : Nat) (s0 : RouterState)
    (t : RTask) (hp : t.status = TaskStatus.pending)
    (hcap : ∀ b ∈ s0.bots, listSubset t.requiredCapabilities b.capabilities = false) :
    ∀ (ids : List String) (st : RouterState),
      st.taskQueue.find? (fun u => u.id = t.id) = some t →
      st.bots.map (fun b => b.capabilities) = s0.bots.map (fun b => b.capabilities) →
      (∀ e ∈ st.timers, e.2 = t.id → e ∈ s0.timers) →
      (ids.foldl (procStep orc now) st).taskQueue.find? (fun u => u.id = t.id) = some t ∧
      (ids.foldl (procStep orc now) st).bots.map (fun b => b.capabilities) =
        s0.bots.map (fun b => b.capabilities) ∧
      (∀ e ∈ (ids.foldl (procStep orc now) st).timers, e.2 = t.id → e ∈ s0.timers) := by
  intro ids
  induction ids with
  | nil => intro st h1 h2 h3; exact ⟨h1, h2, h3⟩
  | cons i rest ih =>
    intro st h1 h2 h3
    rw [List.foldl_cons]
    by_cases hi : i = t.id
    · subst hi
      have hnone : findSuitableBot st t = none := by
        apply findSuitableBot_eq_none
        intro b hb
        have : b.capabilities ∈ st.bots.map (fun b => b.capabilities) :=
          List.mem_map_of_mem _ hb
        rw [h2] at this
        obtain ⟨b0, hb0, hcaps⟩ := List.mem_map.mp this
        exact qualifies_eq_false_of_nosubset (hcaps ▸ hcap b0 hb0)
      rw [procStep_nomatch orc now st t h1 hp hnone]
      exact ih st h1 h2 h3
    · obtain ⟨g1, g2, g3⟩ := procStep_inv_ne orc now st i t.id hi
      apply ih
      · rw [g1]; exact h1
      · rw [g2]; exact h2
      · intro e he hid
        rcases g3 e he with h4 | h4
        · exact h3 e h4 hid
        · exact absurd (h4 ▸ hid : i = t.id) hi

lemma procStep_failed_id (orc : String → Bool) (now : Nat) (st : RouterState)
    (i : String) (tid : String)
    (h : ∀ u ∈ st.taskQueue, u.id = tid → u.status = TaskStatus.failed) :
    ∀ u ∈ (procStep orc now st i).taskQueue, u.id = tid →
      u.status = TaskStatus.failed := by
  unfold procStep
  cases hf : st.taskQueue.find? (fun u => u.id = i) with
  | none => exact h
  | some u =>
    by_cases hp : u.status ≠ TaskStatus.pending
    · simp only [if_pos hp]; exact h
    · simp only [if_neg hp]
      push_neg at hp
      cases hb : findSuitableBot st u with
      | none => exact h
      | some b =>
        have hui : u.id = i := by
          have := List.find?_some hf
          simpa using this
        have hit : i ≠ tid := by
          intro he
          have := h u (List.mem_of_find?_eq_some hf) (hui.trans he)
          rw [this] at hp
          cases hp
        have hstep : ∀ (q : List RTask) (f : RTask → RTask),
            (∀ v, (f v).id = v.id) →
            (∀ u ∈ q, u.id = tid → u.status = TaskStatus.failed) →
            ∀ u ∈ updateTask q i f, u.id = tid → u.status = TaskStatus.failed := by
          intro q f hfid hq v hv hvid
          rcases mem_updateTask hv with h1 | ⟨w, hw, hwid, rfl⟩
          · exact hq v h1 hvid
          · rw [hfid w, hwid] at hvid
            exact absurd hvid hit
        by_cases ho : orc b.id
        · simp only [if_pos ho]
          exact hstep _ _ (fun v => rfl) h
        · simp only [if_neg ho]
          exact hstep _ _ (fun v => rfl) (hstep _ _ (fun v => rfl) h)

lemma foldl_procStep_failed_id (orc : String → Bool) (now : Nat) (tid : String) :
    ∀ (ids : List String) (st : RouterState),
      (∀ u ∈ st.taskQueue, u.id = tid → u.status = TaskStatus.failed) →
      ∀ u ∈ (ids.foldl (procStep orc now) st).taskQueue, u.id = tid →
        u.status = TaskStatus.failed := by
  intro ids
  induction ids with
  | nil => intro st h; exact h
  | cons i rest ih =>
    intro st h
    rw [List.foldl_cons]
    exact ih _ (procStep_failed_id orc now st i tid h)

/-! ### Lemmas about the circuit-breaker transitions -/

lemma checkService_err_status {now : Nat} {s : ResilState} {id e : String}
    {st : ServiceStatus} (h : mapLookup s.serviceStatus id = some st) :
    mapLookup (checkService now s id (Except.error e)).serviceStatus id =
      some { st with isHealthy := false, lastCheck := now, error := some e } := by
  unfold checkService
  rw [h]
  exact mapLookup_mapSet_self _ _ _

lemma checkService_err_breakers {now : Nat} {s : ResilState} {id e : String}
    {st : ServiceStatus} (h : mapLookup s.serviceStatus id = some st) :
    (checkService now s id (Except.error e)).circuitBreakers =
      recordCircuitBreakerEvent now s.circuitBreakers id false := by
  unfold checkService
  rw [h]

lemma recordFail_fields (now : Nat) (cbs : List (String × CircuitBreakerState))
    (id : String) :
    ∃ c', mapLookup (recordCircuitBreakerEvent now cbs id false) id = some c' ∧
      c'.failureCount = ((mapLookup cbs id).getD defaultCircuit).failureCount + 1 ∧
      c'.successCount = 0 ∧
      c'.lastFailureTime = some now ∧
      c'.isOpen = (((mapLookup cbs id).getD defaultCircuit).isOpen ||
        decide (circuitBreakerThreshold ≤
          ((mapLookup cbs id).getD defaultCircuit).failureCount + 1)) := by
  unfold recordCircuitBreakerEvent
  set c := (mapLookup cbs id).getD defaultCircuit with hc
  dsimp only
  by_cases hcond : ¬ c.isOpen = true ∧
      circuitBreakerThreshold ≤ c.failureCount + 1
  · rw [if_pos hcond]
    refine ⟨_, mapLookup_mapSet_self _ _ _, rfl, rfl, rfl, ?_⟩
    obtain ⟨h1, h2⟩ := hcond
    simp [h1, h2]
  · rw [if_neg hcond]
    refine ⟨_, mapLookup_mapSet_self _ _ _, rfl, rfl, rfl, ?_⟩
    by_cases hio : c.isOpen = true
    · simp [hio]
    · have hge : ¬ circuitBreakerThreshold ≤ c.failureCount + 1 := by
        intro hge
        exact hcond ⟨hio, hge⟩
      simp [hio, hge]

lemma checkService_err_step {now : Nat} {s : ResilState} {id e : String}
    {st : ServiceStatus} (h : mapLookup s.serviceStatus id = some st) :
    ∃ c', mapLookup (checkService now s id (Except.error e)).serviceStatus id =
        some { st with isHealthy := false, lastCheck := now, error := some e } ∧
      mapLookup (checkService now s id (Except.error e)).circuitBreakers id = some c' ∧
      c'.failureCount =
        ((mapLookup s.circuitBreakers id).getD defaultCircuit).failureCount + 1 ∧
      c'.successCount = 0 ∧
      c'.isOpen = (((mapLookup s.circuitBreakers id).getD defaultCircuit).isOpen ||
        decide (circuitBreakerThreshold ≤
          ((mapLookup s.circuitBreakers id).getD defaultCircuit).failureCount + 1)) := by
  obtain ⟨c', h1, h2, h3, _, h5⟩ := recordFail_fields now s.circuitBreakers id
  exact ⟨c', checkService_err_status h,
    by rw [checkService_err_breakers h]; exact h1, h2, h3, h5⟩

/-! ### Claim theorems -/

/-- C6: for any two inbound service:restart dispatches, any given recovery
action is executed at most once — in fact the handler executes no action at
all, because the registry invokes handlers as handler(connectionId, data)
while this handler declares a single parameter, so its destructuring of the
service name reads the connection id string and always returns early. -/
theorem c6_service_restart_at_most_once (res1 res2 : RecResults)
    (acts1 acts2 : List RecAction) (cid1 cid2 : String) (p1 p2 : JsValue)
    (key : String × Nat) :
    List.count key (dispatchServiceRestart res1 acts1 cid1 p1 ++
      dispatchServiceRestart res2 acts2 cid2 p2) ≤ 1 := by
  have h1 : dispatchServiceRestart res1 acts1 cid1 p1 = [] := rfl
  have h2 : dispatchServiceRestart res2 acts2 cid2 p2 = [] := rfl
  rw [h1, h2]
  simp

/-- C7 counterexample: the websocket restart action throws at time 1000;
it is executed, but its lastTriggered stamp stays unset, so a second
recovery pass at time 1500 — well inside the 60000 ms cooldown — executes
it again instead of skipping it. -/
theorem c7_counterexample_throw_leaves_cooldown_unset :
    recovAfterThrow.2 = [("websocket", 1)] ∧
    recovAfterThrow.1.recoveryActions.map (fun a => a.lastTriggered) = [none] ∧
    recovSecond.2 = [("websocket", 1)] := by
  refine ⟨by decide, ?_, by decide⟩
  rfl

/-- C7 amended: when a recovery action throws, the exception is caught and
the loop terminates normally, but lastTriggered is not recorded (the stamp
sits after the await inside the try block), so a subsequent attempt of the
same action at any later time is not blocked by the cooldown and executes
again. -/
theorem c7_thrown_action_cooldown_not_recorded (a : RecAction) (now : Nat)
    (e : String) (res : RecResults)
    (hres : res a.target a.priority = Except.error e)
    (hlt : a.lastTriggered = none) :
    (runActions now res [a] [a]).1 = [a] ∧
    (runActions now res [a] [a]).2 = [(a.target, a.priority)] ∧
    ∀ (now2 : Nat) (res2 : RecResults),
      (a.target, a.priority) ∈ (runActions now2 res2 [a] [a]).2 := by
  refine ⟨?_, ?_, ?_⟩
  · simp [runActions, hlt, hres]
  · simp [runActions, hlt, hres]
  · intro now2 res2
    cases hr : res2 a.target a.priority with
    | ok b => cases b <;> simp [runActions, hlt, hr]
    | error e2 => simp [runActions, hlt, hr]

/-- C7 witness: the concrete two-pass run of the websocket restart action
with a throwing action function. -/
theorem c7_witness :
    (runActions 1000 errRes [wsRestartAction] [wsRestartAction]).1 = [wsRestartAction] ∧
    (runActions 1000 errRes [wsRestartAction] [wsRestartAction]).2 = [("websocket", 1)] ∧
    ("websocket", 1) ∈ (runActions 1500 errRes [wsRestartAction] [wsRestartAction]).2 := by
  have h := c7_thrown_action_cooldown_not_recorded wsRestartAction 1000 "boom"
    errRes rfl rfl
  exact ⟨h.1, h.2.1, h.2.2 1500 errRes⟩

/-- C8: when the routing submission throws during createTask, the new task
is synchronously marked failed with the submission error, removed from the
active set, and archived, so getTaskStatus reports it as failed. -/
theorem c8_failed_submission_archives_task (now : Nat) (s : OrchState)
    (taskId ttype payload : String) (opts : CreateOptions) (e : String) :
    (createTask (Except.error e) now s taskId ttype payload opts).2 = taskId ∧
    mapLookup (createTask (Except.error e) now s taskId ttype payload
      opts).1.activeTasks taskId = none ∧
    ((getOrchTaskStatus (createTask (Except.error e) now s taskId ttype payload
        opts).1 taskId).map (fun t => (t.status, t.error))) =
      some (TaskStatus.failed, some e) := by
  refine ⟨rfl, ?_, ?_⟩
  · exact mapLookup_mapErase_self _ _
  · unfold getOrchTaskStatus
    rw [show mapLookup (createTask (Except.error e) now s taskId ttype payload
        opts).1.activeTasks taskId = none from mapLookup_mapErase_self _ _]
    dsimp only
    rw [show mapLookup (createTask (Except.error e) now s taskId ttype payload
        opts).1.completedTasks taskId = some _ from mapLookup_mapSet_self _ _ _]
    rfl

/-- C9: every connection silent for longer than the 90000 ms liveness
timeout is removed from the registry by the heartbeat sweep, and an offline
service-status broadcast is emitted for it. -/
theorem c9_stale_connection_removed_and_offline (now : Nat)
    (conns : List ServiceConnection) (c : ServiceConnection)
    (hmem : c ∈ conns) (hstale : now - c.lastPing > heartbeatTimeoutMs) :
    c ∉ (heartbeatSweep now conns).1 ∧
    SweepEvent.offline c.serviceName ∈ (heartbeatSweep now conns).2 := by
  constructor
  · clear hmem
    induction conns with
    | nil => simp [heartbeatSweep]
    | cons d rest ih =>
      by_cases hd : now - d.lastPing > heartbeatTimeoutMs
      · simpa [heartbeatSweep, hd] using ih
      · simp only [heartbeatSweep, hd, if_false, List.mem_cons]
        intro hcon
        rcases hcon with hcd | hcs
        · rw [hcd] at hstale
          exact hd hstale
        · exact ih hcs
  · induction conns with
    | nil => cases hmem
    | cons d rest ih =>
      rcases List.mem_cons.mp hmem with hcd | hcs
      · subst hcd
        simp [heartbeatSweep, hstale]
      · by_cases hd : now - d.lastPing > heartbeatTimeoutMs <;>
          simp [heartbeatSweep, hd, ih hcs]

/-- C9 witness: a connection last seen at instant 0 is stale at instant
100000 and is swept out with an offline notice. -/
theorem c9_witness :
    let c : ServiceConnection :=
      { id := "conn-1", serviceName := "svc", serviceType := "service",
        connectedAt := 0, lastPing := 0 }
    c ∉ (heartbeatSweep 100000 [c]).1 ∧
    SweepEvent.offline "svc" ∈ (heartbeatSweep 100000 [c]).2 :=
  c9_stale_connection_removed_and_offline 100000 _ _ (by decide) (by decide)

/-- C3 counterexample: after the assigned task t1 times out its status is
failed, yet a late task_update still finds it in the queue (the cleanup has
not run) and moves it back to in_progress — the status leaves the terminal
set. -/
theorem c3_counterexample_late_update_reopens_timed_out_task :
    (getTaskStatus timedOutState "t1").map (fun t => t.status) =
      some TaskStatus.failed ∧
    (getTaskStatus (handleTaskUpdate orcAlwaysOk 300001 timedOutState "bot1"
        { taskId := some "t1", status := TaskStatus.in_progress }) "t1").map
      (fun t => t.status) = some TaskStatus.in_progress := by
  decide

/-- C3 amended: a task_update whose task id is absent from the live queue
(in particular an id that was archived and cleaned up) leaves the router
state completely unchanged, and a task_result for an id absent from the
orchestrator active set leaves the orchestrator state unchanged; but while
a timed-out task is still in the queue awaiting cleanup, a late update
overwrites its status unconditionally. -/
theorem c3_late_updates_for_absent_ids_discarded :
    (∀ (orc : String → Bool) (now : Nat) (s : RouterState) (botId : String)
        (m : TaskUpdateMsg) (tid : String),
        m.taskId = some tid →
        s.taskQueue.find? (fun u => u.id = tid) = none →
        handleTaskUpdate orc now s botId m = s) ∧
    (∀ (s : OrchState) (m : TaskResultMsg),
        mapLookup s.activeTasks m.taskId = none →
        handleTaskResult s m = s) := by
  constructor
  · intro orc now s botId m tid hm hf
    unfold handleTaskUpdate
    rw [hm]
    dsimp only
    rw [hf]
  · intro s m h
    unfold handleTaskResult
    rw [h]

/-- C3 witness: an update for the unknown id zz against the assigned state
is discarded, and so is an orchestrator result for an empty active set. -/
theorem c3_witness :
    handleTaskUpdate orcAlwaysOk 5 assignedState "bot1"
      { taskId := some "zz", status := TaskStatus.completed } = assignedState ∧
    handleTaskResult { activeTasks := [], completedTasks := [] }
      { taskId := "zz" } = { activeTasks := [], completedTasks := [] } :=
  ⟨c3_late_updates_for_absent_ids_discarded.1 orcAlwaysOk 5 assignedState "bot1"
      { taskId := some "zz", status := TaskStatus.completed } "zz" rfl (by decide),
    c3_late_updates_for_absent_ids_discarded.2 _ _ rfl⟩

/-- C4 counterexample: task t1 is assigned to bot1 (load 10); a terminal
task_update arriving from a connection id that is not a registered bot
archives the task as completed, yet bot1 keeps load 10 — the assigned
worker is not the one released. -/
theorem c4_counterexample_ghost_sender_releases_nothing :
    assignedState.bots.map (fun b => (b.id, b.load)) = [("bot1", 10)] ∧
    (getTaskStatus assignedState "t1").map (fun t => t.assignedTo) =
      some (some "bot1") ∧
    (getTaskStatus (handleTaskUpdate orcAlwaysOk 1000 assignedState "ghost"
        { taskId := some "t1", status := TaskStatus.completed,
          result := some "ok" }) "t1").map (fun t => t.status) =
      some TaskStatus.completed ∧
    (handleTaskUpdate orcAlwaysOk 1000 assignedState "ghost"
        { taskId := some "t1", status := TaskStatus.completed,
          result := some "ok" }).bots.map (fun b => (b.id, b.load)) =
      [("bot1", 10)] := by
  decide

/-- C4 amended: the assignment unit is 10 and the release is floored at 0;
on a terminal task_update the router releases the load of the bot whose
connection sent the update (equal to the assigned worker only when that
worker reports); the timeout path releases the assigned worker; a task
failed by a thrown dispatch keeps its worker load incremented and releases
nothing. -/
theorem c4_load_release_paths :
    (∀ b : BotStatus, (incLoad b).load = b.load + 10 ∧
        (decLoad b).load = max 0 (b.load - 10)) ∧
    (∀ (s : RouterState) (botId : String) (m : TaskUpdateMsg) (tid : String)
        (t : RTask),
        m.taskId = some tid →
        s.taskQueue.find? (fun u => u.id = tid) = some t →
        (m.status = TaskStatus.completed ∨ m.status = TaskStatus.failed) →
        (handleTaskUpdateCore s botId m).bots = updateBot s.bots botId decLoad) ∧
    (∀ (s : RouterState) (tid : String) (t : RTask) (bid : String),
        s.taskQueue.find? (fun u => u.id = tid) = some t →
        ¬ (t.status = TaskStatus.completed ∨ t.status = TaskStatus.failed) →
        t.assignedTo = some bid →
        (fireTaskTimeout s tid).bots = updateBot s.bots bid decLoad) ∧
    (∀ (orc : String → Bool) (now : Nat) (s : RouterState) (t : RTask)
        (b : BotStatus),
        s.taskQueue.find? (fun u => u.id = t.id) = some t →
        t.status = TaskStatus.pending →
        findSuitableBot s t = some b →
        orc b.id = false →
        (procStep orc now s t.id).bots = updateBot s.bots b.id incLoad ∧
        (procStep orc now s t.id).taskQueue.find? (fun u => u.id = t.id) =
          some { t with status := TaskStatus.failed, assignedTo := some b.id,
                        error := some "Failed to assign task to bot" }) := by
  refine ⟨?_, ?_, ?_, ?_⟩
  · intro b
    exact ⟨rfl, rfl⟩
  · intro s botId m tid t hm hf hterm
    unfold handleTaskUpdateCore
    rw [hm]
    dsimp only
    rw [hf]
    dsimp only
    rw [if_pos hterm]
  · intro s tid t bid hf hterm hassigned
    unfold fireTaskTimeout
    rw [hf]
    dsimp only
    rw [if_neg hterm, hassigned]
  · intro orc now s t b hf hp hb ho
    unfold procStep
    rw [hf]
    dsimp only
    rw [if_neg (by simp [hp] : ¬ t.status ≠ TaskStatus.pending), hb]
    dsimp only
    rw [if_neg (by simp [ho] : ¬ orc b.id = true)]
    refine ⟨rfl, ?_⟩
    have h1 := find?_updateTask_self hf
      (fun u => rfl) (f := fun u =>
        { u with status := TaskStatus.assigned, assignedTo := some b.id })
    have h2 := find?_updateTask_self h1 (fun u => rfl)
      (f := fun u => { u with status := TaskStatus.failed,
                              error := some "Failed to assign task to bot" })
    exact h2

/-- C4 witness: the three release paths applied at the concrete assigned
state. -/
theorem c4_witness :
    (handleTaskUpdateCore assignedState "bot1"
        { taskId := some "t1", status := TaskStatus.completed,
          result := some "ok" }).bots =
      updateBot assignedState.bots "bot1" decLoad ∧
    (fireTaskTimeout assignedState "t1").bots =
      updateBot assignedState.bots "bot1" decLoad ∧
    (procStep orcAlwaysFail 0 readyState "t1").bots =
      updateBot readyState.bots "bot1" incLoad := by
  refine ⟨?_, ?_, ?_⟩
  · exact c4_load_release_paths.2.1 assignedState "bot1"
      { taskId := some "t1", status := TaskStatus.completed, result := some "ok" }
      "t1" assignedTask rfl (by decide) (Or.inl rfl)
  · exact c4_load_release_paths.2.2.1 assignedState "t1" assignedTask "bot1"
      (by decide) (by decide) rfl
  · exact (c4_load_release_paths.2.2.2 orcAlwaysFail 0 readyState tRelay relayBot
      (by decide) rfl (by decide) rfl).1

/-- C5 counterexample: from a healthy start, five consecutive health checks
whose probe returns false leave the websocket breaker closed with
failureCount 1: only the first check (the healthy-to-unhealthy transition)
records a failure event, so the breaker does not open. -/
theorem c5_counterexample_five_false_probes_leave_breaker_closed :
    (mapLookup fiveFalseChecks.serviceStatus "websocket").map
      (fun st => st.isHealthy) = some false ∧
    (mapLookup fiveFalseChecks.circuitBreakers "websocket").map
      (fun c => (c.isOpen, c.failureCount, c.successCount)) =
      some (false, 1, 0) := by
  decide

/-- C5 amended: a health check whose probe throws always records a breaker
failure event, incrementing failureCount and zeroing successCount; five
consecutive throwing checks open the breaker.  A probe that merely returns
false records an event only on a health transition. -/
theorem c5_throwing_checks_open_breaker :
    (∀ (now : Nat) (s : ResilState) (id e : String) (st : ServiceStatus),
        mapLookup s.serviceStatus id = some st →
        ∃ c', mapLookup (checkService now s id (Except.error e)).circuitBreakers
            id = some c' ∧
          c'.failureCount =
            ((mapLookup s.circuitBreakers id).getD defaultCircuit).failureCount + 1 ∧
          c'.successCount = 0) ∧
    (∀ (s : ResilState) (id : String) (st : ServiceStatus)
        (t1 t2 t3 t4 t5 : Nat) (e1 e2 e3 e4 e5 : String),
        mapLookup s.serviceStatus id = some st →
        ∃ c', mapLookup (checkService t5 (checkService t4 (checkService t3
            (checkService t2 (checkService t1 s id (Except.error e1)) id
              (Except.error e2)) id (Except.error e3)) id (Except.error e4)) id
            (Except.error e5)).circuitBreakers id = some c' ∧
          c'.isOpen = true) := by
  constructor
  · intro now s id e st h
    obtain ⟨c', _, h2, h3, h4, _⟩ := checkService_err_step h
    exact ⟨c', h2, h3, h4⟩
  · intro s id st t1 t2 t3 t4 t5 e1 e2 e3 e4 e5 h0
    obtain ⟨c1, hs1, hb1, hf1, _, _⟩ := checkService_err_step h0
    obtain ⟨c2, hs2, hb2, hf2, _, _⟩ := checkService_err_step hs1
    obtain ⟨c3, hs3, hb3, hf3, _, _⟩ := checkService_err_step hs2
    obtain ⟨c4, hs4, hb4, hf4, _, _⟩ := checkService_err_step hs3
    obtain ⟨c5, _, hb5, hf5, _, ho5⟩ := checkService_err_step hs4
    refine ⟨c5, hb5, ?_⟩
    rw [hb4] at ho5
    rw [hb3] at hf4
    rw [hb2] at hf3
    rw [hb1] at hf2
    simp only [Option.getD_some] at ho5 hf4 hf3 hf2
    have hth : circuitBreakerThreshold ≤ c4.failureCount + 1 := by
      unfold circuitBreakerThreshold
      omega
    rw [ho5]
    simp [hth]

/-- C5 witness: five throwing checks against the healthy monitor state open
the websocket breaker. -/
theorem c5_witness :
    ∃ c', mapLookup (checkService 5 (checkService 4 (checkService 3
        (checkService 2 (checkService 1 resilHealthy "websocket"
          (Except.error "boom")) "websocket" (Except.error "boom"))
        "websocket" (Except.error "boom")) "websocket" (Except.error "boom"))
        "websocket" (Except.error "boom")).circuitBreakers "websocket" =
        some c' ∧ c'.isOpen = true :=
  c5_throwing_checks_open_breaker.2 resilHealthy "websocket" wsHealthy
    1 2 3 4 5 "boom" "boom" "boom" "boom" "boom" rfl

/-- C1 counterexample: one registered bot speaks only communication while
the submitted task requires relay, so no worker ever matches.  The claim
expects the task to become failed once its 5 minute window elapses, but no
timer was ever armed: a processTasks pass is the identity here, firing all
due timers at any later instant is the identity, and the task is still
pending. -/
theorem c1_counterexample_unroutable_task_never_fails :
    listSubset ["relay"] ["communication"] = false ∧
    unroutableState.timers = [] ∧
    processTasks orcAlwaysOk 12345 unroutableState = unroutableState ∧
    fireDueTimers 99999999 unroutableState = unroutableState ∧
    (getTaskStatus unroutableState "t1").map (fun t => t.status) =
      some TaskStatus.pending := by
  decide

/-- C1 amended: a pending task none of whose registered bots has a
capability superset survives a processTasks pass unchanged: it stays in the
queue with status pending (never dropped), and the pass arms no timeout for
it, so the timeout-failure path of the claim is never reached. -/
theorem c1_unroutable_task_stays_pending (orc : String → Bool) (now : Nat)
    (s : RouterState) (t : RTask)
    (hmem : t ∈ s.taskQueue) (hp : t.status = TaskStatus.pending)
    (hnd : (s.taskQueue.map (fun u => u.id)).Nodup)
    (hcap : ∀ b ∈ s.bots, listSubset t.requiredCapabilities b.capabilities = false) :
    t ∈ (processTasks orc now s).taskQueue ∧
    t.status = TaskStatus.pending ∧
    ∀ e ∈ (processTasks orc now s).timers, e.2 = t.id → e ∈ s.timers := by
  have hemp : s.taskQueue.isEmpty = false := by
    cases hq : s.taskQueue with
    | nil => rw [hq] at hmem; cases hmem
    | cons a l => rfl
  have hfind := find?_eq_some_of_mem_nodup hmem hnd
  obtain ⟨h1, h2, h3⟩ := foldl_procStep_untouched orc now s t hp hcap
    ((sortTasks s.taskQueue).map (fun t => t.id)) s hfind rfl (fun e he _ => he)
  unfold processTasks
  simp only [hemp, Bool.false_eq_true, if_false]
  exact ⟨mem_cleanupQueue_of_pending (List.mem_of_find?_eq_some h1) hp, hp, h3⟩

/-- C1 witness: the amended statement at the concrete unroutable state. -/
theorem c1_witness :
    tRelay ∈ (processTasks orcAlwaysOk 12345 unroutableState).taskQueue ∧
    tRelay.status = TaskStatus.pending ∧
    ∀ e ∈ (processTasks orcAlwaysOk 12345 unroutableState).timers,
      e.2 = tRelay.id → e ∈ unroutableState.timers :=
  c1_unroutable_task_stays_pending orcAlwaysOk 12345 unroutableState tRelay
    (by decide) rfl (by decide) (by decide)

/-- C10: when every queue entry with a given id is already failed (as after
a timeout, a dispatch failure, or a caught processing error) and the id is
not archived, the next processTasks pass drops the task from the queue,
leaves the archive untouched, and getTaskStatus returns none afterwards. -/
theorem c10_failed_task_cleanup_unobservable (orc : String → Bool) (now : Nat)
    (s : RouterState) (tid : String)
    (hex : ∃ u ∈ s.taskQueue, u.id = tid)
    (hall : ∀ u ∈ s.taskQueue, u.id = tid → u.status = TaskStatus.failed)
    (harch : mapLookup s.completedTasks tid = none) :
    getTaskStatus (processTasks orc now s) tid = none ∧
    (processTasks orc now s).completedTasks = s.completedTasks := by
  obtain ⟨u0, hu0, _⟩ := hex
  have hemp : s.taskQueue.isEmpty = false := by
    cases hq : s.taskQueue with
    | nil => rw [hq] at hu0; cases hu0
    | cons a l => rfl
  unfold processTasks
  simp only [hemp, Bool.false_eq_true, if_false]
  have hall1 := foldl_procStep_failed_id orc now tid
    ((sortTasks s.taskQueue).map (fun t => t.id)) s hall
  have hcomp := foldl_procStep_completedTasks orc now
    ((sortTasks s.taskQueue).map (fun t => t.id)) s
  refine ⟨?_, hcomp⟩
  unfold getTaskStatus
  have hfind : (cleanupQueue (((sortTasks s.taskQueue).map
      (fun t => t.id)).foldl (procStep orc now) s).taskQueue).find?
      (fun u => u.id = tid) = none := by
    rw [List.find?_eq_none]
    intro v hv
    simp only [cleanupQueue] at hv
    obtain ⟨hvq, hvkeep⟩ := List.mem_filter.mp hv
    intro hpred
    have hvid : v.id = tid := by simpa using hpred
    rw [hall1 v hvq hvid] at hvkeep
    simp at hvkeep
  rw [hfind]
  dsimp only
  rw [hcomp]
  exact harch

/-- C10 witness: the timed-out state holds t1 as failed in the queue; the
next pass makes it unobservable. -/
theorem c10_witness :
    getTaskStatus (processTasks orcAlwaysOk 300002 timedOutState) "t1" = none ∧
    (processTasks orcAlwaysOk 300002 timedOutState).completedTasks =
      timedOutState.completedTasks :=
  c10_failed_task_cleanup_unobservable orcAlwaysOk 300002 timedOutState "t1"
    (by decide) (by decide) (by decide)

/-- C2 counterexample: the queued task has an empty required-capability
set; the registered relay bot is available with load 0 and its capability
set trivially contains every required capability, so under the claim a
worker qualifies and the task should be assigned — yet the pass leaves it
pending, because findSuitableBot rejects empty-capability tasks as
unroutable. -/
theorem c2_counterexample_empty_caps_left_pending :
    listSubset [] ["relay"] = true ∧
    emptyCapsState.bots.map (fun b => (b.isAvailable, b.load)) = [(true, 0)] ∧
    (getTaskStatus emptyCapsState "t1").map
      (fun t => (t.requiredCapabilities, t.status)) =
      some ([], TaskStatus.pending) := by
  decide

/-- C2 amended: the pass iterates the queue snapshot sorted by priority
descending then creation ascending (a stable sort); a pending task whose
required-capability set is nonempty and for which a bot qualifies is
assigned, when the dispatch succeeds, to a qualifying bot of minimal load
among all qualifying bots at that point of the pass; a task with no
qualifying bot (and any empty-capability task) is left exactly as it was,
and pending tasks survive the cleanup for the next tick. -/
theorem c2_priority_order_and_least_loaded_assignment :
    (∀ q : List RTask, List.Sorted taskLE (sortTasks q) ∧ (sortTasks q).Perm q) ∧
    (∀ (p : Int) (c : Nat) (q : List RTask),
        (sortTasks q).filter (sameKey p c) = q.filter (sameKey p c)) ∧
    (∀ (orc : String → Bool) (now : Nat) (s : RouterState) (t : RTask)
        (b : BotStatus),
        s.taskQueue.find? (fun u => u.id = t.id) = some t →
        t.status = TaskStatus.pending →
        findSuitableBot s t = some b →
        b ∈ s.bots ∧ qualifies t b = true ∧
        (∀ x ∈ s.bots, qualifies t x = true → b.load ≤ x.load) ∧
        (orc b.id = true →
          (procStep orc now s t.id).taskQueue.find? (fun u => u.id = t.id) =
            some { t with status := TaskStatus.assigned,
                          assignedTo := some b.id })) ∧
    (∀ (orc : String → Bool) (now : Nat) (s : RouterState) (t : RTask),
        s.taskQueue.find? (fun u => u.id = t.id) = some t →
        t.status = TaskStatus.pending →
        findSuitableBot s t = none →
        procStep orc now s t.id = s) ∧
    (∀ (q : List RTask) (t : RTask), t ∈ q → t.status = TaskStatus.pending →
        t ∈ cleanupQueue q) := by
  refine ⟨?_, ?_, ?_, ?_, ?_⟩
  · intro q
    exact ⟨List.sorted_insertionSort taskLE q, List.perm_insertionSort taskLE q⟩
  · intro p c q
    exact filter_sortTasks_sameKey p c q
  · intro orc now s t b hf hp hb
    obtain ⟨hmem, hq, hmin⟩ := findSuitableBot_spec hb
    exact ⟨hmem, hq, hmin, fun ho => procStep_assigns orc now s t b hf hp hb ho⟩
  · intro orc now s t hf hp hb
    exact procStep_nomatch orc now s t hf hp hb
  · intro q t hm hp
    exact mem_cleanupQueue_of_pending hm hp

/-- C2 witness: in the ready state the relay bot qualifies with minimal
load and the pass assigns the task to it. -/
theorem c2_witness :
    relayBot ∈ readyState.bots ∧ qualifies tRelay relayBot = true ∧
    (∀ x ∈ readyState.bots, qualifies tRelay x = true →
      relayBot.load ≤ x.load) ∧
    (orcAlwaysOk relayBot.id = true →
      (procStep orcAlwaysOk 0 readyState tRelay.id).taskQueue.find?
          (fun u => u.id = tRelay.id) =
        some { tRelay with status := TaskStatus.assigned,
                           assignedTo := some relayBot.id }) :=
  c2_priority_order_and_least_loaded_assignment.2.2.1 orcAlwaysOk 0 readyState
    tRelay relayBot (by decide) rfl (by decide)

end MCP

